import Mathlib

/-
  Verification of the stream-classification and option-building logic of the
  video-edit repository.  Each JavaScript function used by the claims is
  embedded as a computable Lean definition; JS strings are Lean `String`s
  (worked on through their `List Char` data), JS `undefined` is `Option`,
  a JS value that can be thrown is `Except`.
-/

namespace VideoEditProofs

/-- JS `||` on strings: the empty string is falsy, so `s || d` yields `d`
when `s` is empty and `s` otherwise. -/
def jsOr (s d : String) : String :=
  if s = "" then d else s

/-- JS `x || d` where `x` may be `undefined` (`none`) or a string: `undefined`
and the empty string are falsy. -/
def jsOrOpt (o : Option String) (d : String) : String :=
  match o with
  | none => d
  | some s => jsOr s d

/-- JS template interpolation of a possibly-`undefined` string value:
`undefined` prints as the text "undefined". -/
def jsStr (o : Option String) : String :=
  match o with
  | none => "undefined"
  | some s => s

/-- JS `String.prototype.trim` on character lists: drop whitespace from both
ends. -/
def trimChars (l : List Char) : List Char :=
  (((l.dropWhile fun c => c.isWhitespace).reverse.dropWhile fun c =>
    c.isWhitespace)).reverse

/-- JS `String.prototype.trim`. -/
def jsTrim (s : String) : String :=
  String.mk (trimChars s.data)

/-- Index of the first occurrence of a character in a list, if any. -/
def firstIdx (c : Char) : List Char → Option Nat
  | [] => none
  | x :: xs => if x = c then some 0 else (firstIdx c xs).map (· + 1)

/-- Index of the last occurrence of a character in a list, if any. -/
def lastIdx (c : Char) (l : List Char) : Option Nat :=
  (firstIdx c l.reverse).map (fun i => l.length - 1 - i)

/-- JS `s.replace(/\(.*\)/, "")`:  the regex is not global, so at most one
replacement happens; `.*` is greedy, so the single match runs from the first
`(` that has a `)` somewhere after it up to the last `)` of the string.  A
`(` with a `)` after it exists exactly when the first `(` of the string lies
before the last `)`, so the removed span is `[first '(', last ')']` when that
ordering holds and the string is returned unchanged otherwise. -/
def stripParenGreedy (l : List Char) : List Char :=
  match firstIdx '(' l, lastIdx ')' l with
  | some p, some j => if p < j then l.take p ++ l.drop (j + 1) else l
  | some _, none => l
  | none, _ => l

/-- JS `s.slice(0, 1).toUpperCase() + s.slice(1)`: first character upper-cased,
rest unchanged; the empty string stays empty. -/
def capFirst (s : String) : String :=
  match s.data with
  | [] => ""
  | c :: rest => String.mk (c.toUpper :: rest)

/-- Does `pat` occur at the head of the list? -/
def leadsWith : List Char → List Char → Bool
  | [], _ => true
  | _ :: _, [] => false
  | p :: ps, c :: cs => p = c && leadsWith ps cs

/-- Index of the first occurrence of the pattern `pat` as a contiguous
sub-list, if any (JS `String.prototype.indexOf`). -/
def findSubstr (pat : List Char) : List Char → Option Nat
  | [] => if pat.isEmpty then some 0 else none
  | c :: rest =>
      if leadsWith pat (c :: rest) then some 0
      else (findSubstr pat rest).map (· + 1)

/-- JS `s.replace(pat, repl)` with a plain-string pattern: only the first
occurrence is replaced. -/
def replaceFirst (pat repl l : List Char) : List Char :=
  match findSubstr pat l with
  | none => l
  | some i => l.take i ++ repl ++ l.drop (i + pat.length)

/-- One raw elementary-stream record as reported by the external prober
(ffprobe): `tags` may be absent, so `tags?.language` and `tags?.title` are
`Option`s; `codec_type` distinguishes audio/video/subtitle. -/
structure RawStream where
  codec_type : String
  codec_name : String
  codec_long_name : String
  width : Nat
  height : Nat
  r_frame_rate : String
  channel_layout : Option String
  channels : Nat
  language : Option String
  title : Option String
deriving DecidableEq

end VideoEditProofs

/-! ## src/src/services/stream/audio-stream.js -/

namespace VideoEditProofs.StreamSvc

/-- `AudioStream` record of `src/@types/streams.js` as built by
`getAudioStreamData` in `src/services/stream/audio-stream.js`. -/
structure AudioStream where
  lang : String
  origTitle : String
  codecName : String
  formattedCodecName : String
  channelLayout : String
  title : String
  index : Nat
deriving DecidableEq

/-- `formatCodecName` of `src/services/stream/audio-stream.js`:
`name.replace(/\(.*\)/, "").trim()`, then the literal `"ATSC A/52B"` is
mapped to `"AC3"`. -/
def formatCodecName (name : String) : String :=
  let formattedCodecName := String.mk (trimChars (stripParenGreedy name.data))
  if formattedCodecName = "ATSC A/52B" then "AC3" else formattedCodecName

/-- `formatChannelLayout` of `src/services/stream/audio-stream.js`: strip a
parenthesized qualifier, map `"6"`/`"5.1"` to `"5.1 Surround"` and `"7.1"` to
`"7.1 Surround"`, otherwise capitalize the first character. -/
def formatChannelLayout (channelLayout : String) : String :=
  let channels := String.mk (stripParenGreedy channelLayout.data)
  if channels = "6" ∨ channels = "5.1" then "5.1 Surround"
  else if channels = "7.1" then "7.1 Surround"
  else capFirst channels

/-- `formatStreamTitle` of `src/services/stream/audio-stream.js`: keep a
non-empty original title on non-first streams, otherwise the channel-layout
label with `" - Default"` appended on the first stream and a single space
appended otherwise. -/
def formatStreamTitle (stream : AudioStream) : String :=
  if stream.index > 0 ∧ stream.origTitle ≠ "" then stream.origTitle
  else
    stream.channelLayout ++ (if stream.index = 0 then " - Default" else " ")

/-- `getAudioStreamData` of `src/services/stream/audio-stream.js`. -/
def getAudioStreamData (stream : RawStream) (index : Nat) : AudioStream :=
  let audioStream : AudioStream :=
    { lang := jsOrOpt stream.language "eng"
      origTitle := jsOrOpt (stream.title.map jsTrim) ""
      codecName := stream.codec_name
      formattedCodecName := formatCodecName stream.codec_long_name
      channelLayout :=
        formatChannelLayout
          (jsOrOpt stream.channel_layout (toString stream.channels))
      title := ""
      index := index }
  { audioStream with title := formatStreamTitle audioStream }

/-- `getOutputAudioCodec` of `src/services/stream/audio-stream.js`.  The
fluent-ffmpeg handle is replaced by the encoder table its
`getAvailableEncoders` callback receives, as a list of
(encoder name, encoder type) pairs.  When `libfdk_aac` is missing from the
table, the source evaluates `availableEncoders.libfdk_aac.type` on
`undefined`, which throws a `TypeError`; that thrown path is `Except.error`. -/
def getOutputAudioCodec (availableEncoders : List (String × String))
    (currentCodec : String) (convert : Option Bool) : Except Unit String :=
  if convert ≠ some true then Except.ok "copy"
  else if currentCodec = "aac" then Except.ok "copy"
  else
    match availableEncoders.lookup "libfdk_aac" with
    | none => Except.error ()
    | some encoderType =>
        if encoderType = "audio" then Except.ok "libfdk_aac"
        else Except.ok "aac"

/-- The four `outputOptions` calls made for one stream inside
`mapAudioStreams` of `src/services/stream/audio-stream.js`, flattened in
order; the codec comes from `getOutputAudioCodec` and may throw. -/
def audioStreamOptions (availableEncoders : List (String × String))
    (convertAudio : Option Bool) (stream : AudioStream) :
    Except Unit (List String) :=
  (getOutputAudioCodec availableEncoders stream.codecName convertAudio).map
    fun codec =>
      ["-map", "0:a:" ++ toString stream.index,
       "-c:a " ++ codec,
       "-metadata:s:a:" ++ toString stream.index, "language=eng",
       "-metadata:s:a:" ++ toString stream.index,
       "title=" ++ stream.title ++ "  "]

/-- `mapAudioStreams` of `src/services/stream/audio-stream.js`: the returned
array is the English-only filter of the input, but the `forEach` that emits
the ffmpeg options runs over `streams`, i.e. over every input stream.  First
component: the options emitted per input stream; second component: the
returned array. -/
def mapAudioStreams (availableEncoders : List (String × String))
    (streams : List AudioStream) (convertAudio : Option Bool) :
    List (Except Unit (List String)) × List AudioStream :=
  (streams.map (audioStreamOptions availableEncoders convertAudio),
   streams.filter fun s => s.lang == "eng")

end VideoEditProofs.StreamSvc

/-! ## src/src/services/stream/video-stream.js and subtitle-stream.js -/

namespace VideoEditProofs.StreamSvc

/-- `VideoStream` record built by `getVideoStreamData` in
`src/services/stream/video-stream.js`.  The `fps` value in the source is a
floating-point computation (`parseFloat((num / den).toFixed(2))`) fed only to
progress display; no claim depends on it, so the record keeps the raw
`r_frame_rate` string it is computed from. -/
structure VideoStream where
  lang : String
  codecName : String
  formattedCodecName : String
  resolution : String
  rFrameRate : String
  title : String
  index : Nat
deriving DecidableEq

/-- `getVideoStreamData` of `src/services/stream/video-stream.js`: strip a
parenthesized qualifier from the codec long name, and when the result
contains `" / "` keep only the part before the first occurrence. -/
def getVideoStreamData (stream : RawStream) (index : Nat) : VideoStream :=
  let stripped := stripParenGreedy stream.codec_long_name.data
  let formattedCodecName :=
    match findSubstr " / ".data stripped with
    | none => String.mk stripped
    | some i => String.mk (stripped.take i)
  { lang := jsOrOpt stream.language "eng"
    codecName := jsOr stream.codec_name ""
    formattedCodecName := formattedCodecName
    resolution := toString stream.width ++ "x" ++ toString stream.height
    rFrameRate := stream.r_frame_rate
    title := ""
    index := index }

/-- `SubtitleStream` record built by `getSubtitleStreamData` in
`src/services/stream/subtitle-stream.js`; `lang` is `tags?.language`, which
may be `undefined`. -/
structure SubtitleStream where
  lang : Option String
  title : String
  codecName : String
  formattedCodecName : String
  index : Nat
deriving DecidableEq

/-- `getSubtitleStreamData` of `src/services/stream/subtitle-stream.js`: the
codec long name has its first `"SubRip subtitle"` replaced by `"SubRip"` and
everything from the first `"HDMV"` on replaced by `"PGS subtitle"`. -/
def getSubtitleStreamData (stream : RawStream) (index : Nat) : SubtitleStream :=
  let step1 := replaceFirst "SubRip subtitle".data "SubRip".data
    stream.codec_long_name.data
  let formattedCodecName :=
    match findSubstr "HDMV".data step1 with
    | none => String.mk step1
    | some i => String.mk (step1.take i ++ "PGS subtitle".data)
  { lang := stream.language
    title := jsOrOpt (stream.title.map jsTrim) ""
    codecName := stream.codec_name
    formattedCodecName := formattedCodecName
    index := index }

/-- Text subtitle formats (`textSubTypes` of
`src/services/stream/subtitle-stream.js`). -/
def textSubTypes : List String := ["mov_text", "subrip", "ass", "ssa"]

/-- `getImageSubtitles` of `src/services/stream/subtitle-stream.js`: keeps the
streams whose codec is neither a text format nor `hdmv_pgs_subtitle`. -/
def getImageSubtitles (streams : List SubtitleStream) : List SubtitleStream :=
  streams.filter fun stream =>
    !(textSubTypes.contains stream.codecName) &&
      !(stream.codecName == "hdmv_pgs_subtitle")

/-- `getTextSubtitles` of `src/services/stream/subtitle-stream.js`. -/
def getTextSubtitles (streams : List SubtitleStream) : List SubtitleStream :=
  streams.filter fun stream => textSubTypes.contains stream.codecName

end VideoEditProofs.StreamSvc

/-! ## src/src/services/stream/stream.js -/

namespace VideoEditProofs.StreamSvc

/-- The `Streams` record of `src/@types/streams.js`: one typed list per
stream class. -/
structure Streams where
  audio : List AudioStream
  video : List VideoStream
  subtitle : List SubtitleStream
deriving DecidableEq

/-- Body of the `forEach`/`switch` in `getInputStreams` of
`src/services/stream/stream.js`: push the typed record onto the list of its
class, handing it the current length of that list as its index. -/
def getInputStreamsStep (inputStreams : Streams) (stream : RawStream) :
    Streams :=
  if stream.codec_type == "audio" then
    { inputStreams with
      audio := inputStreams.audio ++
        [getAudioStreamData stream inputStreams.audio.length] }
  else if stream.codec_type == "video" then
    { inputStreams with
      video := inputStreams.video ++
        [getVideoStreamData stream inputStreams.video.length] }
  else if stream.codec_type == "subtitle" then
    { inputStreams with
      subtitle := inputStreams.subtitle ++
        [getSubtitleStreamData stream inputStreams.subtitle.length] }
  else inputStreams

/-- `getInputStreams` of `src/services/stream/stream.js`. -/
def getInputStreams (streams : List RawStream) : Streams :=
  streams.foldl getInputStreamsStep ⟨[], [], []⟩

end VideoEditProofs.StreamSvc

/-! ## src/src/services/subtitle-stream.js -/

namespace VideoEditProofs.SubSvc

/-- Subtitle record of `src/services/subtitle-stream.js`
(`getSubtitleStreamData` there defaults `lang` and `title` to `""`). -/
structure SubtitleStream where
  lang : String
  title : String
  codecName : String
  formattedCodecName : String
  index : Nat
deriving DecidableEq

/-- Text subtitle formats (`textSubs` of `src/services/subtitle-stream.js`). -/
def textSubs : List String := ["subrip", "ass", "ssa"]

/-- `getImageSubtitles` of `src/services/subtitle-stream.js`: everything that
is not a text format. -/
def getImageSubtitles (streams : List SubtitleStream) : List SubtitleStream :=
  streams.filter fun stream => !(textSubs.contains stream.codecName)

/-- `getTextSubtitles` of `src/services/subtitle-stream.js`. -/
def getTextSubtitles (streams : List SubtitleStream) : List SubtitleStream :=
  streams.filter fun stream => textSubs.contains stream.codecName

end VideoEditProofs.SubSvc

/-! ## src/unnamed/part_008 (second audio-stream service variant) -/

namespace VideoEditProofs.PartEight

/-- `outputAudioCodec` from the variant's `config/config.js`. -/
def outputAudioCodec : String := "aac"

/-- `formatChannelLayout` of the part_008 audio-stream service: same as the
`src/services/stream` variant plus the `"5"`/`"5.0"` and `"8"` mappings. -/
def formatChannelLayout (channelLayout : String) : String :=
  let channels := String.mk (stripParenGreedy channelLayout.data)
  if channels = "5" ∨ channels = "5.0" then "5.0 Surround"
  else if channels = "6" ∨ channels = "5.1" then "5.1 Surround"
  else if channels = "8" ∨ channels = "7.1" then "7.1 Surround"
  else capFirst channels

/-- `getAudioEncoder` of part_008: like `getOutputAudioCodec` of
`src/services/stream/audio-stream.js` but compares against the configured
`outputAudioCodec` and returns it unchanged were it not `"aac"`; the
`availableEncoders.libfdk_aac.type` access again throws when `libfdk_aac`
is absent (`Except.error`). -/
def getAudioEncoder (availableEncoders : List (String × String))
    (currentCodec : String) (convert : Option Bool) : Except Unit String :=
  if convert ≠ some true then Except.ok "copy"
  else if currentCodec = outputAudioCodec then Except.ok "copy"
  else if outputAudioCodec ≠ "aac" then Except.ok outputAudioCodec
  else
    match availableEncoders.lookup "libfdk_aac" with
    | none => Except.error ()
    | some encoderType =>
        if encoderType = "audio" then Except.ok "libfdk_aac"
        else Except.ok "aac"

end VideoEditProofs.PartEight

/-! ## src/src/services/audio.js -/

namespace VideoEditProofs.AudioSvc

/-- Audio record built inside `getAudioStreams` of `src/services/audio.js`
(note: unlike the stream-service variant, `origTitle` is not trimmed and
`channelLayout` is kept raw). -/
structure AudioStream where
  lang : String
  origTitle : String
  codecName : String
  channelLayout : String
  title : String
  index : Nat
deriving DecidableEq

/-- `getFormattedChannelLayout` of `src/services/audio.js`: only `"5.1"` and
`"7.1"` get surround names here. -/
def getFormattedChannelLayout (stream : AudioStream) : String :=
  let channels := String.mk (stripParenGreedy stream.channelLayout.data)
  if channels = "5.1" then "5.1 Surround"
  else if channels = "7.1" then "7.1 Surround"
  else capFirst channels

/-- `generateStreamTitle` of `src/services/audio.js`: same title policy as
`formatStreamTitle` of the stream service, with the channel-layout label
computed here from the raw layout. -/
def generateStreamTitle (stream : AudioStream) : String :=
  if stream.index > 0 ∧ stream.origTitle ≠ "" then stream.origTitle
  else
    getFormattedChannelLayout stream ++
      (if stream.index = 0 then " - Default" else " ")

/-- The object literal built in the `.map` callback of `getAudioStreams`,
before and after its `title` is filled in. -/
def mkAudioStream (stream : RawStream) (index : Nat) : AudioStream :=
  let audioStream : AudioStream :=
    { lang := jsOrOpt stream.language "eng"
      origTitle := jsOrOpt stream.title ""
      codecName := jsOr stream.codec_name ""
      channelLayout := jsOrOpt stream.channel_layout ""
      title := ""
      index := index }
  { audioStream with title := generateStreamTitle audioStream }

/-- JS `Array.prototype.map` whose callback also receives the element
index. -/
def mapWithIndexAux (f : Nat → RawStream → AudioStream) :
    Nat → List RawStream → List AudioStream
  | _, [] => []
  | i, s :: rest => f i s :: mapWithIndexAux f (i + 1) rest

/-- `getAudioStreams` of `src/services/audio.js`, from the probed stream list
on: filter the audio streams, classify them, keep the English ones, and exit
the process with code 1 and the quoted error message when none remain.
`Except.error` carries the exit code and the logged message; the ffprobe
invocation itself is the external collaborator and its failure path
(also `process.exit(1)`) is outside this embedding. -/
def getAudioStreams (probeStreams : List RawStream) :
    Except (Nat × String) (List AudioStream) :=
  let streams := probeStreams.filter fun s => s.codec_type == "audio"
  let mappedStreams :=
    (mapWithIndexAux (fun index stream => mkAudioStream stream index) 0
        streams).filter fun s => s.lang == "eng"
  if mappedStreams.length = 0 then
    Except.error (1, "No English audio streams found in the video file.")
  else Except.ok mappedStreams

/-- `isLibfdkAvailable` of `src/services/audio.js`: unlike
`getOutputAudioCodec`, it uses optional chaining
(`encoders?.libfdk_aac?.type === "audio"`), so a missing `libfdk_aac` entry
yields `false` rather than a thrown `TypeError`. -/
def isLibfdkAvailable (encoders : List (String × String)) : Bool :=
  encoders.lookup "libfdk_aac" == some "audio"

end VideoEditProofs.AudioSvc

/-! ## src/unnamed/part_001 (filename service) -/

namespace VideoEditProofs.FilenameSvc

/-- `getStreamLabel` of the part_001 filename service: no label for a single
stream; otherwise `"default"` for stream index 0 (overriding any title), else
the title (with its first `"SDH"` lower-cased), else the stream index. -/
def getStreamLabel (stream : StreamSvc.SubtitleStream) (streamCount : Nat) :
    String :=
  if streamCount = 1 then ""
  else
    let label := jsOr stream.title ""
    let label2 := if stream.index = 0 then "default" else label
    let label3 := String.mk (replaceFirst "SDH".data "sdh".data label2.data)
    "." ++ (if label3 = "" then toString stream.index else label3)

/-- `getSubFilename` of the part_001 filename service.  The first argument is
the `outputFile` base the source computes as
`path.join(path.dirname(inputFile), path.basename(inputFile,
path.extname(inputFile)))`, i.e. the input path minus its extension; that
Node `path` arithmetic is external-library behaviour and is taken as given.
The extension is always `".srt"`. -/
def getSubFilename (outputFile : String) (stream : StreamSvc.SubtitleStream)
    (streamCount : Nat) : String :=
  outputFile ++ "." ++ jsStr stream.lang ++ getStreamLabel stream streamCount
    ++ ".srt"

/-- Modelled from the spec (claim C7's wording), for comparison with
`getSubFilename`: base name, then — only when more than one stream will be
extracted — a disambiguating label (title if present, else `"default"` for
the first stream, else the numeric index), then the language tag, then
extension `"srt"`, or `"ass"` when the source codec is ASS. -/
def claimSubFilename (outputFile : String) (stream : StreamSvc.SubtitleStream)
    (streamCount : Nat) : String :=
  outputFile ++
    (if streamCount > 1 then
      "." ++
        (if stream.title ≠ "" then stream.title
         else if stream.index = 0 then "default"
         else toString stream.index)
     else "") ++
    "." ++ jsStr stream.lang ++ "." ++
    (if stream.codecName = "ass" then "ass" else "srt")

end VideoEditProofs.FilenameSvc

/-! ## Concrete inputs used by the claim theorems -/

namespace VideoEditProofs

/-- Final step of both codec-name formatters: the verbose ATSC A/52B name is
aliased to `"AC3"`, every other name is passed through. -/
def ac3Alias (s : String) : String :=
  if s = "ATSC A/52B" then "AC3" else s

/-- A classified French audio stream (first audio stream of its file). -/
def frAudioStream : StreamSvc.AudioStream :=
  ⟨"fre", "", "ac3", "AC3", "5.1 Surround", "5.1 Surround - Default", 0⟩

/-- A classified bitmap (PGS) English subtitle stream. -/
def pgsStream : StreamSvc.SubtitleStream :=
  ⟨some "eng", "", "hdmv_pgs_subtitle", "PGS subtitle", 0⟩

/-- A first (index 0) English ASS subtitle stream carrying a title. -/
def forcedSub : StreamSvc.SubtitleStream :=
  ⟨some "eng", "Forced", "ass", "ASS", 0⟩

/-- A probed French audio stream (no English audio in sight). -/
def rawFrench : RawStream :=
  ⟨"audio", "ac3", "ATSC A/52B", 0, 0, "24/1", none, 6, some "fre", none⟩

end VideoEditProofs

/-! ## src/src/config/config.js, video mapping and image-sub mapping of the
stream services, and the remaining subtitle-filename variants -/

namespace VideoEditProofs

/-- `outputVideoCodec` of `src/config/config.js`. -/
def outputVideoCodec : String := "hevc"

/-- `getCodecName` of `src/config/config.js`: human-friendly names for the
two configured codecs, every other codec passed through. -/
def getCodecName (codec : String) : String :=
  if codec = "hevc" then "H.265"
  else if codec = "aac" then "AAC"
  else codec

end VideoEditProofs

namespace VideoEditProofs.StreamSvc

/-- `ConvertOpts` of `src/@types/convert-opts.js`: the option bag of boolean
switches (absent flags are `none`) plus the preset/CRF overrides. -/
structure ConvertOpts where
  convertAudio : Option Bool
  convertVideo : Option Bool
  forceConvert : Option Bool
  extractSubs : Option Bool
  extractOnly : Option Bool
  ffmpegPreset : Option String
  ffmpegCrf : Option Nat
deriving DecidableEq

/-- `setVideoConvertOpts` of `src/services/stream/video-stream.js`, as the
list of codec/preset/CRF options it pushes: converting requires
`convertVideo` truthy and (`forceConvert === true` or a codec differing from
the configured target); `ffmpegPreset || "slow"` and `(ffmpegCrf || 24)`
follow JS falsiness (so a CRF of 0 also falls back to 24); the HEVC target
adds the 10-bit pixel format and main10 profile; otherwise the codec is
`copy`.  The function only emits options — it never touches the stream
record. -/
def setVideoConvertOpts (stream : VideoStream) (opts : ConvertOpts) :
    List String :=
  let preset := jsOrOpt opts.ffmpegPreset "slow"
  let crf := toString (match opts.ffmpegCrf with
    | none => 24
    | some n => if n = 0 then 24 else n)
  if opts.convertVideo = some true ∧
      (opts.forceConvert = some true ∨ stream.codecName ≠ outputVideoCodec)
    then
    ["-c:v libx265", "-preset", preset, "-crf", crf] ++
      (if outputVideoCodec = "hevc" then
        ["-pix_fmt:v:0", "yuv420p10le", "-profile:v:0", "main10"]
      else [])
  else ["-c:v copy"]

/-- `mapVideoStreams` of `src/services/stream/video-stream.js`: maps the
first video stream; when `convertVideo` is truthy it rewrites that record's
codec-name fields (its `index` is untouched) and returns the singleton list.
On an empty stream list the source would dereference `streams[0]` being
`undefined`, a thrown `TypeError` (`Except.error`).  First component: the
emitted options, in order. -/
def mapVideoStreams (streams : List VideoStream) (opts : ConvertOpts) :
    Except Unit (List String × List VideoStream) :=
  match streams with
  | [] => Except.error ()
  | videoStream :: _ =>
      let baseOpts := ["-map 0:v:0", "-metadata:s:v:0", "language=eng"]
      let convertOpts := setVideoConvertOpts videoStream opts
      let outStream :=
        if opts.convertVideo = some true then
          { videoStream with
              codecName := outputVideoCodec
              formattedCodecName := getCodecName outputVideoCodec }
        else videoStream
      Except.ok (baseOpts ++ convertOpts, [outStream])

/-- `mapImageSubs` of `src/services/stream/subtitle-stream.js`: the
image-based English subtitle streams are mapped with codec copy (a title
metadata option is added only when a title is already set) and returned
unchanged. -/
def mapImageSubs (streams : List SubtitleStream) :
    List String × List SubtitleStream :=
  let imageSubs :=
    (getImageSubtitles streams).filter fun sub => sub.lang == some "eng"
  ((imageSubs.map fun sub =>
      ["-map", "0:s:" ++ toString sub.index,
       "-c:s:" ++ toString sub.index ++ " copy"] ++
        (if sub.title ≠ "" then
          ["-metadata:s:s:" ++ toString sub.index,
           "title=" ++ sub.title ++ "  "]
        else [])).flatten,
   imageSubs)

end VideoEditProofs.StreamSvc

namespace VideoEditProofs.PartEighteen

/-- `getSubFilename` of the part_018 filename service.  As for the part_001
variant, the first argument is the `outputFile` base the source computes
from the Node `path` helpers (input path minus its extension).  Label (title
if non-empty, else numeric index) only when more than one stream is
extracted and the index is non-zero, placed before the language tag; the
extension is always `".srt"`. -/
def getSubFilename (outputFile : String) (stream : StreamSvc.SubtitleStream)
    (streamCount : Nat) : String :=
  (if streamCount > 1 ∧ stream.index ≠ 0 then
      outputFile ++ ("." ++ jsOr stream.title (toString stream.index))
    else outputFile) ++ "." ++ jsStr stream.lang ++ ".srt"

end VideoEditProofs.PartEighteen

namespace VideoEditProofs.SubtitleJs

/-- Subtitle record of `src/services/subtitle.js` (`getSubtitleStreams`
there defaults `lang` and `title` to `""`, so both are plain strings). -/
structure SubtitleStream where
  lang : String
  title : String
  codecName : String
  index : Nat
deriving DecidableEq

/-- `getOutputFilename` of `src/services/subtitle.js`.  The module-global
`streamCount` is threaded as a parameter; the base argument again stands for
the Node-path computation of the input path minus its extension.  Because
this service always materialises `title` as a string, the
`stream.title ?? stream.index` nullish-coalescing always takes the title
(an empty title yields an empty label); the extension is always `".srt"`. -/
def getOutputFilename (outputFile : String) (stream : SubtitleStream)
    (streamCount : Nat) : String :=
  (if streamCount > 1 ∧ stream.index ≠ 0 then
      outputFile ++ ("." ++ stream.title)
    else outputFile) ++ "." ++ stream.lang ++ ".srt"

end VideoEditProofs.SubtitleJs

/-! ## Helper lemmas -/

namespace VideoEditProofs

theorem firstIdx_of_not_mem {c : Char} {l : List Char} (h : c ∉ l) :
    firstIdx c l = none := by
  induction l with
  | nil => rfl
  | cons x xs ih =>
      simp only [List.mem_cons, not_or] at h
      simp only [firstIdx]
      rw [if_neg fun hx => h.1 hx.symm, ih h.2]
      rfl

theorem firstIdx_append_cons {c : Char} (a t : List Char) (h : c ∉ a) :
    firstIdx c (a ++ c :: t) = some a.length := by
  induction a with
  | nil => simp [firstIdx]
  | cons x xs ih =>
      simp only [List.mem_cons, not_or] at h
      simp only [List.cons_append, firstIdx]
      rw [if_neg fun hx => h.1 hx.symm]
      simp [ih h.2]

theorem stripParenGreedy_span (a m t : List Char) (ha : '(' ∉ a)
    (ht : ')' ∉ t) :
    stripParenGreedy (a ++ '(' :: (m ++ ')' :: t)) = a ++ t := by
  have hfi : firstIdx '(' (a ++ '(' :: (m ++ ')' :: t)) = some a.length :=
    firstIdx_append_cons a (m ++ ')' :: t) ha
  have hlen : (a ++ '(' :: (m ++ ')' :: t)).length =
      a.length + m.length + t.length + 2 := by
    simp only [List.length_append, List.length_cons]
    omega
  have hrev : (a ++ '(' :: (m ++ ')' :: t)).reverse =
      t.reverse ++ ')' :: (a ++ '(' :: m).reverse := by
    rw [show a ++ '(' :: (m ++ ')' :: t) = (a ++ '(' :: m) ++ ')' :: t by
      simp]
    rw [List.reverse_append, List.reverse_cons, List.append_assoc]
    rfl
  have hfr : firstIdx ')' (a ++ '(' :: (m ++ ')' :: t)).reverse =
      some t.length := by
    rw [hrev]
    have := firstIdx_append_cons t.reverse ((a ++ '(' :: m).reverse)
      (by simpa using ht)
    simpa using this
  have hlast : lastIdx ')' (a ++ '(' :: (m ++ ')' :: t)) =
      some (a.length + m.length + 1) := by
    unfold lastIdx
    rw [hfr, Option.map_some']
    congr 1
    rw [hlen]
    omega
  unfold stripParenGreedy
  rw [hfi, hlast]
  simp only
  rw [if_pos (by omega)]
  have htake : (a ++ '(' :: (m ++ ')' :: t)).take a.length = a :=
    List.take_left a ('(' :: (m ++ ')' :: t))
  have hdrop : (a ++ '(' :: (m ++ ')' :: t)).drop
      (a.length + m.length + 1 + 1) = t := by
    rw [show a ++ '(' :: (m ++ ')' :: t) = (a ++ '(' :: (m ++ [')'])) ++ t
      by simp]
    rw [show a.length + m.length + 1 + 1 =
        (a ++ '(' :: (m ++ [')'])).length by
      simp only [List.length_append, List.length_cons, List.length_nil]
      omega]
    exact List.drop_left _ _
  rw [htake, hdrop]

theorem stripParenGreedy_no_close {l : List Char} (h : ')' ∉ l) :
    stripParenGreedy l = l := by
  have hlast : lastIdx ')' l = none := by
    unfold lastIdx
    rw [firstIdx_of_not_mem (by simpa using h)]
    rfl
  unfold stripParenGreedy
  rw [hlast]
  rcases hfi : firstIdx '(' l with _ | p <;> rfl

theorem stripParenGreedy_no_open {l : List Char} (h : '(' ∉ l) :
    stripParenGreedy l = l := by
  unfold stripParenGreedy
  rw [firstIdx_of_not_mem h]

theorem replaceFirst_no_occ {pat repl l : List Char}
    (h : findSubstr pat l = none) : replaceFirst pat repl l = l := by
  unfold replaceFirst
  rw [h]

theorem str_append_empty (s : String) : s ++ "" = s := by
  cases s with
  | mk l =>
      show String.mk (l ++ []) = String.mk l
      rw [List.append_nil]

end VideoEditProofs

/-! ## Claim theorems -/

namespace VideoEditProofs

/-- C5 counterexample: `formatCodecName` performs one greedy, unanchored
regex replacement, so a mid-string parenthetical (ffmpeg's real DSD long
name) is stripped even though the claim's "all other names are returned
trimmed but otherwise unchanged" demands the input back, and two
parentheticals collapse into a single removal spanning both, rather than
"exactly one parenthetical suffix" being removed. -/
theorem codec_name_cleanup_claim_cex :
    StreamSvc.formatCodecName
        "DSD (Direct Stream Digital), least significant bit first" =
      "DSD , least significant bit first" ∧
      StreamSvc.formatCodecName
          "DSD (Direct Stream Digital), least significant bit first" ≠
        jsTrim "DSD (Direct Stream Digital), least significant bit first" ∧
      StreamSvc.formatCodecName "A (x) (y)" = "A" ∧
      StreamSvc.formatCodecName "A (x) (y)" ≠ "A (x)" := by
  refine ⟨by decide, by decide, by decide, by decide⟩

/-- C5 amended: the cleanup removes the single greedy span of
`replace(/\(.*\)/, "")` — from the first `(` through the last `)`, which
may cover several parentheticals and any text between or after them — then
trims and aliases the literal `"ATSC A/52B"` to `"AC3"`; a name containing
no such span (no `(`, no `)`, or the last `)` not after the first `(`) is
returned trimmed (and aliased) but otherwise unchanged.  For a name with
exactly one parenthetical suffix this coincides with the original claim. -/
theorem codec_name_cleanup_amended :
    (∀ a m t : List Char, '(' ∉ a → ')' ∉ t →
        StreamSvc.formatCodecName
            (String.mk (a ++ '(' :: (m ++ ')' :: t))) =
          ac3Alias (String.mk (trimChars (a ++ t)))) ∧
    (∀ s : String, '(' ∉ s.data →
        StreamSvc.formatCodecName s = ac3Alias (jsTrim s)) ∧
    (∀ s : String, ')' ∉ s.data →
        StreamSvc.formatCodecName s = ac3Alias (jsTrim s)) ∧
    (∀ (s : String) (p j : Nat), firstIdx '(' s.data = some p →
        lastIdx ')' s.data = some j → ¬ p < j →
        StreamSvc.formatCodecName s = ac3Alias (jsTrim s)) := by
  refine ⟨?_, ?_, ?_, ?_⟩
  · intro a m t ha ht
    unfold StreamSvc.formatCodecName
    rw [show (String.mk (a ++ '(' :: (m ++ ')' :: t))).data =
          a ++ '(' :: (m ++ ')' :: t) from rfl,
        stripParenGreedy_span a m t ha ht]
    rfl
  · intro s h
    unfold StreamSvc.formatCodecName
    rw [stripParenGreedy_no_open h]
    rfl
  · intro s h
    unfold StreamSvc.formatCodecName
    rw [stripParenGreedy_no_close h]
    rfl
  · intro s p j h1 h2 h3
    unfold StreamSvc.formatCodecName
    have hs : stripParenGreedy s.data = s.data := by
      unfold stripParenGreedy
      rw [h1, h2]
      simp only
      rw [if_neg h3]
    rw [hs]
    rfl

/-- C5 amended witness: the DSD long name loses exactly its greedy
parenthetical span and keeps the text after the last `)`. -/
theorem codec_name_cleanup_amended_witness :
    ('(' ∉ "DSD ".data) ∧
      (')' ∉ ", least significant bit first".data) ∧
      StreamSvc.formatCodecName
          (String.mk ("DSD ".data ++ '(' ::
            ("Direct Stream Digital".data ++ ')' ::
              ", least significant bit first".data))) =
        ac3Alias (String.mk (trimChars
          ("DSD ".data ++ ", least significant bit first".data))) :=
  ⟨by decide, by decide,
   codec_name_cleanup_amended.1 "DSD ".data "Direct Stream Digital".data
     ", least significant bit first".data (by decide) (by decide)⟩

/-- C2 counterexample: the channel-layout formatter of
`src/services/stream/audio-stream.js` does not map `"8"` to
`"7.1 Surround"` (nor `"5"`/`"5.0"` to `"5.0 Surround"`); `"8"` falls through
to first-character capitalization. -/
theorem channel_layout_claim_cex :
    StreamSvc.formatChannelLayout "8" = "8" ∧
      StreamSvc.formatChannelLayout "8" ≠ "7.1 Surround" ∧
      StreamSvc.formatChannelLayout "5.0" = "5.0" ∧
      StreamSvc.formatChannelLayout "5" = "5" := by
  refine ⟨by decide, by decide, by decide, by decide⟩

/-- C2 amended: the part_008 variant implements the full surround table
(`"5"`/`"5.0"`, `"6"`/`"5.1"`, `"8"`/`"7.1"`); the
`src/services/stream/audio-stream.js` variant maps only `"6"`/`"5.1"` and
`"7.1"`, sending `"8"`, `"5.0"` and `"5"` (like every other stripped string
outside its table) to first-character capitalization.  Both variants first
strip a parenthesized qualifier. -/
theorem channel_layout_amended :
    (PartEight.formatChannelLayout "5.1" = "5.1 Surround" ∧
     PartEight.formatChannelLayout "6" = "5.1 Surround" ∧
     PartEight.formatChannelLayout "7.1" = "7.1 Surround" ∧
     PartEight.formatChannelLayout "8" = "7.1 Surround" ∧
     PartEight.formatChannelLayout "5.0" = "5.0 Surround" ∧
     PartEight.formatChannelLayout "5" = "5.0 Surround") ∧
    (StreamSvc.formatChannelLayout "5.1" = "5.1 Surround" ∧
     StreamSvc.formatChannelLayout "6" = "5.1 Surround" ∧
     StreamSvc.formatChannelLayout "7.1" = "7.1 Surround" ∧
     StreamSvc.formatChannelLayout "5.1(side)" = "5.1 Surround") ∧
    (∀ s : String,
        String.mk (stripParenGreedy s.data) ≠ "5" →
        String.mk (stripParenGreedy s.data) ≠ "5.0" →
        String.mk (stripParenGreedy s.data) ≠ "6" →
        String.mk (stripParenGreedy s.data) ≠ "5.1" →
        String.mk (stripParenGreedy s.data) ≠ "8" →
        String.mk (stripParenGreedy s.data) ≠ "7.1" →
        PartEight.formatChannelLayout s =
            capFirst (String.mk (stripParenGreedy s.data)) ∧
          StreamSvc.formatChannelLayout s =
            capFirst (String.mk (stripParenGreedy s.data))) := by
  refine ⟨by decide, by decide, ?_⟩
  intro s h5 h50 h6 h51 h8 h71
  constructor
  · simp only [PartEight.formatChannelLayout]
    rw [if_neg (not_or.mpr ⟨h5, h50⟩), if_neg (not_or.mpr ⟨h6, h51⟩),
      if_neg (not_or.mpr ⟨h8, h71⟩)]
  · simp only [StreamSvc.formatChannelLayout]
    rw [if_neg (not_or.mpr ⟨h6, h51⟩), if_neg h71]

/-- C2 amended witness: `"stereo"` is outside both tables and gets its first
character capitalized. -/
theorem channel_layout_amended_witness :
    (String.mk (stripParenGreedy "stereo".data) ≠ "5") ∧
      StreamSvc.formatChannelLayout "stereo" =
        capFirst (String.mk (stripParenGreedy "stereo".data)) :=
  ⟨by decide,
   (channel_layout_amended.2.2 "stereo" (by decide) (by decide) (by decide)
     (by decide) (by decide) (by decide)).2⟩

/-- C4: the audio title policy, in both the stream-service and the audio.js
variants — first stream of its class: channel-layout label plus
`" - Default"`; later stream with a non-empty original title: that title
verbatim; later stream without one: channel-layout label plus a single
space. -/
theorem audio_title_derivation :
    (∀ st : StreamSvc.AudioStream, st.index = 0 →
        StreamSvc.formatStreamTitle st = st.channelLayout ++ " - Default") ∧
    (∀ st : StreamSvc.AudioStream, 0 < st.index → st.origTitle ≠ "" →
        StreamSvc.formatStreamTitle st = st.origTitle) ∧
    (∀ st : StreamSvc.AudioStream, 0 < st.index → st.origTitle = "" →
        StreamSvc.formatStreamTitle st = st.channelLayout ++ " ") ∧
    (∀ st : AudioSvc.AudioStream, st.index = 0 →
        AudioSvc.generateStreamTitle st =
          AudioSvc.getFormattedChannelLayout st ++ " - Default") ∧
    (∀ st : AudioSvc.AudioStream, 0 < st.index → st.origTitle ≠ "" →
        AudioSvc.generateStreamTitle st = st.origTitle) ∧
    (∀ st : AudioSvc.AudioStream, 0 < st.index → st.origTitle = "" →
        AudioSvc.generateStreamTitle st =
          AudioSvc.getFormattedChannelLayout st ++ " ") := by
  refine ⟨?_, ?_, ?_, ?_, ?_, ?_⟩
  · intro st h
    simp [StreamSvc.formatStreamTitle, h]
  · intro st hpos hne
    simp only [StreamSvc.formatStreamTitle]
    rw [if_pos ⟨hpos, hne⟩]
  · intro st hpos hemp
    simp only [StreamSvc.formatStreamTitle]
    rw [if_neg (by simp [hemp]), if_neg (by omega)]
  · intro st h
    simp [AudioSvc.generateStreamTitle, h]
  · intro st hpos hne
    simp only [AudioSvc.generateStreamTitle]
    rw [if_pos ⟨hpos, hne⟩]
  · intro st hpos hemp
    simp only [AudioSvc.generateStreamTitle]
    rw [if_neg (by simp [hemp]), if_neg (by omega)]

/-- C4 witness: a first stream with channel layout `"5.1 Surround"` is titled
`"5.1 Surround - Default"`. -/
theorem audio_title_derivation_witness :
    ((⟨"eng", "", "aac", "AAC", "5.1 Surround", "", 0⟩ :
        StreamSvc.AudioStream).index = 0) ∧
      StreamSvc.formatStreamTitle
          ⟨"eng", "", "aac", "AAC", "5.1 Surround", "", 0⟩ =
        (⟨"eng", "", "aac", "AAC", "5.1 Surround", "", 0⟩ :
          StreamSvc.AudioStream).channelLayout ++ " - Default" :=
  ⟨rfl, audio_title_derivation.1 _ rfl⟩

end VideoEditProofs

namespace VideoEditProofs

/-- C3 counterexample: in `src/services/stream/subtitle-stream.js` a PGS
(`hdmv_pgs_subtitle`) stream lands in neither the text list nor the image
list, so the two filters do not partition the streams and the bitmap codec is
not classified image-based. -/
theorem subtitle_partition_claim_cex :
    StreamSvc.getTextSubtitles [pgsStream] = [] ∧
      StreamSvc.getImageSubtitles [pgsStream] = [] := by
  refine ⟨by decide, by decide⟩

/-- C3 amended: in `src/services/subtitle-stream.js` the text/image filters
partition every stream list by codec-name membership in
`{"subrip", "ass", "ssa"}` (so PGS is image-based); in
`src/services/stream/subtitle-stream.js` a stream is text-based iff its codec
is in `{"mov_text", "subrip", "ass", "ssa"}`, but image-based only when the
codec is additionally not `hdmv_pgs_subtitle` — PGS streams are left out of
both lists. -/
theorem subtitle_classification_amended :
    (∀ (streams : List SubSvc.SubtitleStream) (s : SubSvc.SubtitleStream),
        s ∈ streams →
        ((s ∈ SubSvc.getTextSubtitles streams ↔
            s.codecName ∈ SubSvc.textSubs) ∧
         (s ∈ SubSvc.getImageSubtitles streams ↔
            s.codecName ∉ SubSvc.textSubs))) ∧
    (∀ (streams : List StreamSvc.SubtitleStream)
        (s : StreamSvc.SubtitleStream), s ∈ streams →
        ((s ∈ StreamSvc.getTextSubtitles streams ↔
            s.codecName ∈ StreamSvc.textSubTypes) ∧
         (s ∈ StreamSvc.getImageSubtitles streams ↔
            (s.codecName ∉ StreamSvc.textSubTypes ∧
              s.codecName ≠ "hdmv_pgs_subtitle")))) := by
  constructor
  · intro streams s hs
    constructor
    · simp [SubSvc.getTextSubtitles, List.mem_filter, hs]
    · simp [SubSvc.getImageSubtitles, List.mem_filter, hs]
  · intro streams s hs
    constructor
    · simp [StreamSvc.getTextSubtitles, List.mem_filter, hs]
    · simp [StreamSvc.getImageSubtitles, List.mem_filter, hs]

/-- C3 amended witness: the PGS stream is a member of its singleton list yet
satisfies neither membership characterization's right-hand side for the
image list of the stream-service variant. -/
theorem subtitle_classification_amended_witness :
    (pgsStream ∈ [pgsStream]) ∧
      (pgsStream ∈ StreamSvc.getImageSubtitles [pgsStream] ↔
        (pgsStream.codecName ∉ StreamSvc.textSubTypes ∧
          pgsStream.codecName ≠ "hdmv_pgs_subtitle")) :=
  ⟨by decide,
   (subtitle_classification_amended.2 [pgsStream] pgsStream (by decide)).2⟩

/-- C6 counterexample: with an encoder table that lacks `libfdk_aac`
entirely, `getOutputAudioCodec` with conversion requested on a non-AAC
stream throws (the `availableEncoders.libfdk_aac.type` access), rather than
falling back to `"aac"`. -/
theorem output_audio_codec_claim_cex :
    StreamSvc.getOutputAudioCodec [("aac", "audio")] "ac3" (some true) =
        Except.error () ∧
      StreamSvc.getOutputAudioCodec [("aac", "audio")] "ac3" (some true) ≠
        Except.ok "aac" := by
  refine ⟨rfl, ?_⟩
  intro h
  rw [show StreamSvc.getOutputAudioCodec [("aac", "audio")] "ac3"
      (some true) = Except.error () from rfl] at h
  exact Except.noConfusion h

/-- C6 amended: the chosen audio codec is `"copy"` iff conversion is not
requested or the stream is already AAC; when converting a non-AAC stream the
result is `"libfdk_aac"` if the encoder table reports `libfdk_aac` with type
`"audio"`, `"aac"` if it reports it with another type, and a thrown
`TypeError` (not a fallback) when `libfdk_aac` is absent from the table.
The separate `isLibfdkAvailable` helper of `src/services/audio.js` does
treat an absent entry as unavailable, and the part_008 `getAudioEncoder`
behaves exactly like `getOutputAudioCodec`. -/
theorem output_audio_codec_amended :
    (∀ (enc : List (String × String)) (cc : String) (cv : Option Bool),
        (StreamSvc.getOutputAudioCodec enc cc cv = Except.ok "copy" ↔
          cv ≠ some true ∨ cc = "aac")) ∧
    (∀ (enc : List (String × String)) (cc : String),
        enc.lookup "libfdk_aac" = some "audio" → cc ≠ "aac" →
        StreamSvc.getOutputAudioCodec enc cc (some true) =
          Except.ok "libfdk_aac") ∧
    (∀ (enc : List (String × String)) (cc ty : String),
        enc.lookup "libfdk_aac" = some ty → ty ≠ "audio" → cc ≠ "aac" →
        StreamSvc.getOutputAudioCodec enc cc (some true) = Except.ok "aac") ∧
    (∀ (enc : List (String × String)) (cc : String),
        enc.lookup "libfdk_aac" = none → cc ≠ "aac" →
        StreamSvc.getOutputAudioCodec enc cc (some true) =
          Except.error ()) ∧
    (∀ enc : List (String × String),
        enc.lookup "libfdk_aac" = none →
        AudioSvc.isLibfdkAvailable enc = false) ∧
    (∀ (enc : List (String × String)) (cc : String) (cv : Option Bool),
        PartEight.getAudioEncoder enc cc cv =
          StreamSvc.getOutputAudioCodec enc cc cv) := by
  refine ⟨?_, ?_, ?_, ?_, ?_, ?_⟩
  · intro enc cc cv
    by_cases hcv : cv = some true
    · subst hcv
      by_cases hcc : cc = "aac"
      · simp [StreamSvc.getOutputAudioCodec, hcc]
      · rcases h : enc.lookup "libfdk_aac" with _ | ty
        · simp [StreamSvc.getOutputAudioCodec, hcc, h]
        · by_cases hty : ty = "audio" <;>
            simp [StreamSvc.getOutputAudioCodec, hcc, h, hty]
    · simp [StreamSvc.getOutputAudioCodec, hcv]
  · intro enc cc h hcc
    simp [StreamSvc.getOutputAudioCodec, hcc, h]
  · intro enc cc ty h hty hcc
    simp [StreamSvc.getOutputAudioCodec, hcc, h, hty]
  · intro enc cc h hcc
    simp [StreamSvc.getOutputAudioCodec, hcc, h]
  · intro enc h
    simp [AudioSvc.isLibfdkAvailable, h]
  · intro enc cc cv
    rfl

/-- C6 amended witness: with `libfdk_aac` reported as an audio encoder, a
non-AAC stream converts through `libfdk_aac`. -/
theorem output_audio_codec_amended_witness :
    (([("libfdk_aac", "audio")] :
        List (String × String)).lookup "libfdk_aac" = some "audio") ∧
      (("ac3" : String) ≠ "aac") ∧
      StreamSvc.getOutputAudioCodec [("libfdk_aac", "audio")] "ac3"
          (some true) = Except.ok "libfdk_aac" :=
  ⟨by decide, by decide,
   output_audio_codec_amended.2.1 [("libfdk_aac", "audio")] "ac3" (by decide)
     (by decide)⟩

end VideoEditProofs

namespace VideoEditProofs

/-- C7 counterexample: for a first-of-two English ASS subtitle stream titled
"Forced", the part_001 filename service yields `"movie.eng.default.srt"`
(language before label, `"default"` overriding the title, extension always
`"srt"`), while the claim's construction would yield
`"movie.Forced.eng.ass"`. -/
theorem sub_filename_claim_cex :
    FilenameSvc.getSubFilename "movie" forcedSub 2 =
        "movie.eng.default.srt" ∧
      FilenameSvc.claimSubFilename "movie" forcedSub 2 =
        "movie.Forced.eng.ass" ∧
      FilenameSvc.getSubFilename "movie" forcedSub 2 ≠
        FilenameSvc.claimSubFilename "movie" forcedSub 2 := by
  refine ⟨by decide, by decide, by decide⟩

/-- C7 amended: the part_001 subtitle filename is the input path minus its
extension, then `"."` and the language tag, then — only when the stream
count differs from one — `"."` and a label that is `"default"` for stream
index 0 (even when a title is present), else the title (first `"SDH"`
lower-cased), else the numeric stream index; the extension is always
`".srt"`, regardless of the source codec.  The part_018 and subtitle.js
variants place their label before the language tag, add it only when more
than one stream is extracted and the index is non-zero (part_018 falls back
from an empty title to the index, subtitle.js always uses the title), never
use `"default"` — and their extension is also always `".srt"`. -/
theorem sub_filename_amended :
    (∀ (base : String) (s : StreamSvc.SubtitleStream),
        FilenameSvc.getSubFilename base s 1 =
          base ++ "." ++ jsStr s.lang ++ ".srt") ∧
    (∀ (base : String) (s : StreamSvc.SubtitleStream) (c : Nat), c ≠ 1 →
        s.index = 0 →
        FilenameSvc.getSubFilename base s c =
          base ++ "." ++ jsStr s.lang ++ ".default" ++ ".srt") ∧
    (∀ (base : String) (s : StreamSvc.SubtitleStream) (c : Nat), c ≠ 1 →
        s.index ≠ 0 → s.title = "" →
        FilenameSvc.getSubFilename base s c =
          base ++ "." ++ jsStr s.lang ++ ("." ++ toString s.index) ++
            ".srt") ∧
    (∀ (base : String) (s : StreamSvc.SubtitleStream) (c : Nat), c ≠ 1 →
        s.index ≠ 0 → s.title ≠ "" →
        findSubstr "SDH".data s.title.data = none →
        FilenameSvc.getSubFilename base s c =
          base ++ "." ++ jsStr s.lang ++ ("." ++ s.title) ++ ".srt") ∧
    (∀ (base : String) (s : StreamSvc.SubtitleStream) (c : Nat),
        ∃ pre, FilenameSvc.getSubFilename base s c = pre ++ ".srt") ∧
    (∀ (base : String) (s : StreamSvc.SubtitleStream) (c : Nat),
        ¬(c > 1 ∧ s.index ≠ 0) →
        PartEighteen.getSubFilename base s c =
          base ++ "." ++ jsStr s.lang ++ ".srt") ∧
    (∀ (base : String) (s : StreamSvc.SubtitleStream) (c : Nat),
        c > 1 → s.index ≠ 0 → s.title ≠ "" →
        PartEighteen.getSubFilename base s c =
          base ++ ("." ++ s.title) ++ "." ++ jsStr s.lang ++ ".srt") ∧
    (∀ (base : String) (s : StreamSvc.SubtitleStream) (c : Nat),
        c > 1 → s.index ≠ 0 → s.title = "" →
        PartEighteen.getSubFilename base s c =
          base ++ ("." ++ toString s.index) ++ "." ++ jsStr s.lang ++
            ".srt") ∧
    (∀ (base : String) (s : StreamSvc.SubtitleStream) (c : Nat),
        ∃ pre, PartEighteen.getSubFilename base s c = pre ++ ".srt") ∧
    (∀ (base : String) (s : SubtitleJs.SubtitleStream) (c : Nat),
        ¬(c > 1 ∧ s.index ≠ 0) →
        SubtitleJs.getOutputFilename base s c =
          base ++ "." ++ s.lang ++ ".srt") ∧
    (∀ (base : String) (s : SubtitleJs.SubtitleStream) (c : Nat),
        c > 1 → s.index ≠ 0 →
        SubtitleJs.getOutputFilename base s c =
          base ++ ("." ++ s.title) ++ "." ++ s.lang ++ ".srt") ∧
    (∀ (base : String) (s : SubtitleJs.SubtitleStream) (c : Nat),
        ∃ pre, SubtitleJs.getOutputFilename base s c = pre ++ ".srt") := by
  refine ⟨?_, ?_, ?_, ?_, ?_, ?_, ?_, ?_, ?_, ?_, ?_, ?_⟩
  · intro base s
    have hlabel : FilenameSvc.getStreamLabel s 1 = "" := by
      unfold FilenameSvc.getStreamLabel
      rw [if_pos rfl]
    unfold FilenameSvc.getSubFilename
    rw [hlabel, str_append_empty]
  · intro base s c hc h0
    have hlabel : FilenameSvc.getStreamLabel s c = ".default" := by
      unfold FilenameSvc.getStreamLabel
      rw [if_neg hc]
      show ("." ++
          if String.mk (replaceFirst "SDH".data "sdh".data
              (if s.index = 0 then "default" else jsOr s.title "").data) =
            "" then toString s.index
          else String.mk (replaceFirst "SDH".data "sdh".data
              (if s.index = 0 then "default" else jsOr s.title "").data)) =
        ".default"
      rw [if_pos h0]
      rw [show String.mk (replaceFirst "SDH".data "sdh".data
          "default".data) = "default" from by decide]
      rw [if_neg (by decide)]
      decide
    unfold FilenameSvc.getSubFilename
    rw [hlabel]
  · intro base s c hc hi hti
    have hlabel : FilenameSvc.getStreamLabel s c =
        "." ++ toString s.index := by
      unfold FilenameSvc.getStreamLabel
      rw [if_neg hc, hti]
      show ("." ++
          if String.mk (replaceFirst "SDH".data "sdh".data
              (if s.index = 0 then "default" else jsOr "" "").data) =
            "" then toString s.index
          else String.mk (replaceFirst "SDH".data "sdh".data
              (if s.index = 0 then "default" else jsOr "" "").data)) =
        "." ++ toString s.index
      rw [if_neg hi]
      rw [show String.mk (replaceFirst "SDH".data "sdh".data
          (jsOr "" "").data) = "" from by decide]
      rw [if_pos rfl]
    unfold FilenameSvc.getSubFilename
    rw [hlabel]
  · intro base s c hc hi hti hsdh
    have hlabel : FilenameSvc.getStreamLabel s c = "." ++ s.title := by
      unfold FilenameSvc.getStreamLabel
      rw [if_neg hc,
        show jsOr s.title "" = s.title from by unfold jsOr; rw [if_neg hti]]
      show ("." ++
          if String.mk (replaceFirst "SDH".data "sdh".data
              (if s.index = 0 then "default" else s.title).data) =
            "" then toString s.index
          else String.mk (replaceFirst "SDH".data "sdh".data
              (if s.index = 0 then "default" else s.title).data)) =
        "." ++ s.title
      rw [if_neg hi]
      rw [replaceFirst_no_occ hsdh]
      rw [show String.mk s.title.data = s.title from rfl]
      rw [if_neg hti]
    unfold FilenameSvc.getSubFilename
    rw [hlabel]
  · intro base s c
    exact ⟨base ++ "." ++ jsStr s.lang ++ FilenameSvc.getStreamLabel s c,
      rfl⟩
  · intro base s c h
    unfold PartEighteen.getSubFilename
    rw [if_neg h]
  · intro base s c hc hi hti
    unfold PartEighteen.getSubFilename
    rw [if_pos ⟨hc, hi⟩,
      show jsOr s.title (toString s.index) = s.title from by
        unfold jsOr; rw [if_neg hti]]
  · intro base s c hc hi hti
    unfold PartEighteen.getSubFilename
    rw [if_pos ⟨hc, hi⟩, hti,
      show jsOr "" (toString s.index) = toString s.index from by
        unfold jsOr; rw [if_pos rfl]]
  · intro base s c
    exact ⟨(if c > 1 ∧ s.index ≠ 0 then
        base ++ ("." ++ jsOr s.title (toString s.index))
      else base) ++ "." ++ jsStr s.lang, rfl⟩
  · intro base s c h
    unfold SubtitleJs.getOutputFilename
    rw [if_neg h]
  · intro base s c hc hi
    unfold SubtitleJs.getOutputFilename
    rw [if_pos ⟨hc, hi⟩]
  · intro base s c
    exact ⟨(if c > 1 ∧ s.index ≠ 0 then base ++ ("." ++ s.title)
      else base) ++ "." ++ s.lang, rfl⟩

/-- C7 amended witness: the counterexample stream, through the amended
index-0 clause. -/
theorem sub_filename_amended_witness :
    ((2 : Nat) ≠ 1) ∧ (forcedSub.index = 0) ∧
      FilenameSvc.getSubFilename "movie" forcedSub 2 =
        "movie" ++ "." ++ jsStr forcedSub.lang ++ ".default" ++ ".srt" :=
  ⟨by decide, rfl,
   sub_filename_amended.2.1 "movie" forcedSub 2 (by decide) rfl⟩

end VideoEditProofs

namespace VideoEditProofs

theorem mem_mapWithIndexAux {f : Nat → RawStream → AudioSvc.AudioStream}
    {x : AudioSvc.AudioStream} :
    ∀ {i : Nat} {l : List RawStream},
      x ∈ AudioSvc.mapWithIndexAux f i l → ∃ j a, a ∈ l ∧ x = f j a := by
  intro i l
  induction l generalizing i with
  | nil => intro h; exact absurd h (List.not_mem_nil x)
  | cons a rest ih =>
      intro h
      rcases List.mem_cons.mp h with h1 | h2
      · exact ⟨i, a, List.mem_cons_self a rest, h1⟩
      · rcases ih h2 with ⟨j, b, hb, hx⟩
        exact ⟨j, b, List.mem_cons_of_mem a hb, hx⟩

/-- C8: when no probed audio stream classifies as English (the classifier
defaults a missing language tag to `"eng"`, so this means every audio
stream carries a non-English tag), `getAudioStreams` of
`src/services/audio.js` takes the `process.exit(1)` path with the logged
message, which begins with the phrase "No English audio streams"; no stream
list is ever returned on that path. -/
theorem no_english_audio_error :
    (∀ probe : List RawStream,
        (∀ s ∈ probe, s.codec_type = "audio" →
          jsOrOpt s.language "eng" ≠ "eng") →
        AudioSvc.getAudioStreams probe =
          Except.error
            (1, "No English audio streams found in the video file.")) ∧
    (∃ rest, "No English audio streams found in the video file." =
        "No English audio streams" ++ rest) ∧
    (∀ (probe : List RawStream) (v : List AudioSvc.AudioStream),
        (∀ s ∈ probe, s.codec_type = "audio" →
          jsOrOpt s.language "eng" ≠ "eng") →
        AudioSvc.getAudioStreams probe ≠ Except.ok v) := by
  have key : ∀ probe : List RawStream,
      (∀ s ∈ probe, s.codec_type = "audio" →
        jsOrOpt s.language "eng" ≠ "eng") →
      AudioSvc.getAudioStreams probe =
        Except.error
          (1, "No English audio streams found in the video file.") := by
    intro probe h
    unfold AudioSvc.getAudioStreams
    have hnil :
        (AudioSvc.mapWithIndexAux
            (fun index stream => AudioSvc.mkAudioStream stream index) 0
            (probe.filter fun s => s.codec_type == "audio")).filter
          (fun s => s.lang == "eng") = [] := by
      rw [List.filter_eq_nil_iff]
      intro x hx
      rcases mem_mapWithIndexAux hx with ⟨j, a, ha, hxa⟩
      rcases List.mem_filter.mp ha with ⟨hap, hat⟩
      have hlang : x.lang = jsOrOpt a.language "eng" := by
        rw [hxa]; rfl
      have hne := h a hap (by simpa using hat)
      simp only [hlang]
      simpa using hne
    simp only [hnil]
    rfl
  refine ⟨key, ⟨" found in the video file.", by decide⟩, ?_⟩
  intro probe v h heq
  rw [key probe h] at heq
  exact Except.noConfusion heq

/-- C8 witness: a file whose only audio stream is tagged French exits with
code 1 and the "No English audio streams" message. -/
theorem no_english_audio_error_witness :
    (∀ s ∈ [rawFrench], s.codec_type = "audio" →
        jsOrOpt s.language "eng" ≠ "eng") ∧
      AudioSvc.getAudioStreams [rawFrench] =
        Except.error
          (1, "No English audio streams found in the video file.") :=
  ⟨by decide, no_english_audio_error.1 [rawFrench] (by decide)⟩

/-- C9: classification in `getInputStreams` assigns every audio, video and
subtitle record an index equal to the length of its class list at insertion
time, so the indices of each class list read 0, 1, 2, …; and no later stage
of the pipeline mutates a record's index: the audio mapping stage and the
subtitle selection and image-sub mapping stages return sublists of the
classified records (filters, never rewrites), and the video mapping stage —
the one stage that does rewrite codec fields when converting — returns its
singleton stream list with the index unchanged. -/
theorem stream_index_invariant :
    (∀ raw : List RawStream,
        (StreamSvc.getInputStreams raw).audio.map (fun s => s.index) =
            List.range (StreamSvc.getInputStreams raw).audio.length ∧
          (StreamSvc.getInputStreams raw).video.map (fun s => s.index) =
            List.range (StreamSvc.getInputStreams raw).video.length ∧
          (StreamSvc.getInputStreams raw).subtitle.map (fun s => s.index) =
            List.range (StreamSvc.getInputStreams raw).subtitle.length) ∧
    (∀ (enc : List (String × String)) (streams : List StreamSvc.AudioStream)
        (cv : Option Bool),
        ((StreamSvc.mapAudioStreams enc streams cv).2).Sublist streams) ∧
    (∀ streams : List StreamSvc.SubtitleStream,
        (StreamSvc.getTextSubtitles streams).Sublist streams ∧
          (StreamSvc.getImageSubtitles streams).Sublist streams) ∧
    (∀ streams : List StreamSvc.SubtitleStream,
        ((StreamSvc.mapImageSubs streams).2).Sublist streams) ∧
    (∀ (s : StreamSvc.VideoStream) (rest : List StreamSvc.VideoStream)
        (opts : StreamSvc.ConvertOpts),
        (StreamSvc.mapVideoStreams (s :: rest) opts).map
            (fun r => r.2.map fun v => v.index) = Except.ok [s.index]) := by
  refine ⟨?_, ?_, ?_, ?_, ?_⟩
  · have main : ∀ (raw : List RawStream) (acc : StreamSvc.Streams),
        (acc.audio.map (fun s => s.index) = List.range acc.audio.length ∧
          acc.video.map (fun s => s.index) = List.range acc.video.length ∧
          acc.subtitle.map (fun s => s.index) =
            List.range acc.subtitle.length) →
        ((raw.foldl StreamSvc.getInputStreamsStep acc).audio.map
              (fun s => s.index) =
            List.range
              (raw.foldl StreamSvc.getInputStreamsStep acc).audio.length ∧
          (raw.foldl StreamSvc.getInputStreamsStep acc).video.map
              (fun s => s.index) =
            List.range
              (raw.foldl StreamSvc.getInputStreamsStep acc).video.length ∧
          (raw.foldl StreamSvc.getInputStreamsStep acc).subtitle.map
              (fun s => s.index) =
            List.range
              (raw.foldl StreamSvc.getInputStreamsStep acc).subtitle.length)
        := by
      intro raw
      induction raw with
      | nil => intro acc h; exact h
      | cons stream rest ih =>
          intro acc h
          rw [List.foldl_cons]
          apply ih
          unfold StreamSvc.getInputStreamsStep
          by_cases h1 : stream.codec_type == "audio"
          · rw [if_pos h1]
            refine ⟨?_, h.2.1, h.2.2⟩
            simp only [List.map_append, List.length_append]
            rw [h.1]
            simp [List.range_succ,
              show ∀ s i, (StreamSvc.getAudioStreamData s i).index = i from
                fun _ _ => rfl]
          · rw [if_neg h1]
            by_cases h2 : stream.codec_type == "video"
            · rw [if_pos h2]
              refine ⟨h.1, ?_, h.2.2⟩
              simp only [List.map_append, List.length_append]
              rw [h.2.1]
              simp [List.range_succ,
                show ∀ s i, (StreamSvc.getVideoStreamData s i).index = i from
                  fun _ _ => rfl]
            · rw [if_neg h2]
              by_cases h3 : stream.codec_type == "subtitle"
              · rw [if_pos h3]
                refine ⟨h.1, h.2.1, ?_⟩
                simp only [List.map_append, List.length_append]
                rw [h.2.2]
                simp [List.range_succ,
                  show ∀ s i,
                      (StreamSvc.getSubtitleStreamData s i).index = i from
                    fun _ _ => rfl]
              · rw [if_neg h3]
                exact h
    intro raw
    exact main raw ⟨[], [], []⟩ ⟨rfl, rfl, rfl⟩
  · intro enc streams cv
    exact List.filter_sublist streams
  · intro streams
    exact ⟨List.filter_sublist streams, List.filter_sublist streams⟩
  · intro streams
    exact (List.filter_sublist _).trans (List.filter_sublist streams)
  · intro s rest opts
    by_cases h : opts.convertVideo = some true <;>
      simp [StreamSvc.mapVideoStreams, Except.map, h]

/-- C10: an audio stream probed without a language tag is classified with
language `"eng"` by `getAudioStreamData`, and is therefore kept by the
English-only filter that `mapAudioStreams` returns as the output stream
list. -/
theorem untagged_audio_english :
    (∀ (stream : RawStream) (i : Nat), stream.language = none →
        (StreamSvc.getAudioStreamData stream i).lang = "eng") ∧
    (∀ (stream : RawStream) (i : Nat) (enc : List (String × String))
        (streams : List StreamSvc.AudioStream) (cv : Option Bool),
        stream.language = none →
        StreamSvc.getAudioStreamData stream i ∈ streams →
        StreamSvc.getAudioStreamData stream i ∈
          (StreamSvc.mapAudioStreams enc streams cv).2) := by
  have hlang : ∀ (stream : RawStream) (i : Nat), stream.language = none →
      (StreamSvc.getAudioStreamData stream i).lang = "eng" := by
    intro stream i h
    show jsOrOpt stream.language "eng" = "eng"
    rw [h]
    rfl
  refine ⟨hlang, ?_⟩
  intro stream i enc streams cv h hm
  refine List.mem_filter.mpr ⟨hm, ?_⟩
  simp [hlang stream i h]

/-- C10 witness: a concrete untagged audio stream is classified English and
survives the mapping filter. -/
theorem untagged_audio_english_witness :
    ((⟨"audio", "aac", "AAC (Advanced Audio Coding)", 0, 0, "24/1", none, 2,
        none, none⟩ : RawStream).language = none) ∧
      (StreamSvc.getAudioStreamData
          ⟨"audio", "aac", "AAC (Advanced Audio Coding)", 0, 0, "24/1",
            none, 2, none, none⟩ 0).lang = "eng" :=
  ⟨rfl, untagged_audio_english.1 _ 0 rfl⟩

/-- C1 failing input: `mapAudioStreams` of
`src/services/stream/audio-stream.js` on a single French audio stream (with
conversion off) emits the `-map 0:a:0` option block for that stream — its
`forEach` runs over all input streams — while the returned list of output
(reported) streams is empty because the English-only filter result is what
is returned.  The spec and the function's own comments say non-English
streams are dropped without being mapped. -/
theorem map_non_english_audio_bug :
    StreamSvc.mapAudioStreams [] [frAudioStream] (some false) =
      ([Except.ok ["-map", "0:a:0", "-c:a copy", "-metadata:s:a:0",
          "language=eng", "-metadata:s:a:0",
          "title=5.1 Surround - Default  "]], []) := by
  rfl

end VideoEditProofs
